import Mathlib

/-!
Verification development for the VIIRS-Tiled-Granules repository.

Shallow embedding conventions:
- Python strings are embedded as `List Char`.
- Raw digital numbers (integer HDF5 datasets) are embedded as `ℤ`; calibrated
  pixel values are `Option ℚ`, where `none` stands for the floating NaN
  sentinel produced by masking.  The arithmetic used by the decode pipeline
  (elementwise comparison, multiplication, addition) propagates NaN exactly as
  `Option.map` propagates `none`, and comparisons against NaN are false, which
  is how the embedding treats `none`.
- Fallible Python operations are embedded as `Option` or `Except`.
-/

/-! ## Dataset attributes and the decode pipeline
Embeds `VIIRSTiledGranule.layer` and `VIIRSTiledGranule.fill` from
`VIIRS_tiled_granules/VIIRS_tiled_granule.py`.  The attribute record mirrors
exactly the attribute keys the source consults: `_Fillvalue`, `valid_range`
(a two element sequence), `scale_factor`, `add_offset`. -/

structure DatasetAttributes where
  Fillvalue : Option ℤ
  valid_range : Option (ℤ × ℤ)
  scale_factor : Option ℚ
  add_offset : Option ℚ

/-- Embeds the repeated source idiom `if p is None and key in attributes: p = attributes[key]`:
the explicitly supplied parameter is kept when present, otherwise the
attribute value (when present) is used. -/
def resolveParam {α : Type} (explicit attr : Option α) : Option α :=
  match explicit with
  | some v => some v
  | none => attr

/-- Embeds `rt.where(layer == fill, np.nan, layer)` at one pixel: a NaN pixel
compares unequal to the fill and is kept as NaN. -/
def maskFill (f : ℤ) (x : Option ℚ) : Option ℚ :=
  match x with
  | none => none
  | some v => if v = (f : ℚ) then none else some v

/-- Embeds `rt.where(layer < valid_min, np.nan, layer)` at one pixel: a NaN
pixel compares false and is kept as NaN. -/
def maskBelow (m : ℤ) (x : Option ℚ) : Option ℚ :=
  match x with
  | none => none
  | some v => if v < (m : ℚ) then none else some v

/-- Embeds `rt.where(layer > valid_max, np.nan, layer)` at one pixel. -/
def maskAbove (m : ℤ) (x : Option ℚ) : Option ℚ :=
  match x with
  | none => none
  | some v => if (m : ℚ) < v then none else some v

namespace VIIRSTiledGranule

/-- Embeds the first three stages of `VIIRSTiledGranule.layer` in their source
order: fill masking, below `valid_min` masking, above `valid_max` masking.
Each stage runs exactly when its parameter is explicitly supplied or the
corresponding attribute is present (`resolveParam`). -/
def maskStage (fill valid_min valid_max : Option ℤ) (attrs : DatasetAttributes)
    (DN : List ℤ) : List (Option ℚ) :=
  let l0 : List (Option ℚ) := DN.map (fun d : ℤ => some (d : ℚ))
  let l1 := match resolveParam fill attrs.Fillvalue with
    | some fv => l0.map (maskFill fv)
    | none => l0
  let l2 := match resolveParam valid_min (attrs.valid_range.map Prod.fst) with
    | some m => l1.map (maskBelow m)
    | none => l1
  match resolveParam valid_max (attrs.valid_range.map Prod.snd) with
  | some m => l2.map (maskAbove m)
  | none => l2

/-- Embeds the last two stages of `VIIRSTiledGranule.layer` in their source
order: `layer *= scale` then `layer += offset`.  NaN pixels (`none`) propagate
through both, as IEEE arithmetic propagates NaN. -/
def scaleOffsetStage (scale offset : Option ℚ) (attrs : DatasetAttributes)
    (l : List (Option ℚ)) : List (Option ℚ) :=
  let l4 := match resolveParam scale attrs.scale_factor with
    | some sv => l.map (fun x => x.map (fun v => v * sv))
    | none => l
  match resolveParam offset attrs.add_offset with
  | some ov => l4.map (fun x => x.map (fun v => v + ov))
  | none => l4

/-- Embeds `VIIRSTiledGranule.layer`: the raw digital numbers pass through the
five calibration stages in the fixed source order. -/
def layer (fill : Option ℤ) (scale offset : Option ℚ)
    (valid_min valid_max : Option ℤ) (attrs : DatasetAttributes)
    (DN : List ℤ) : List (Option ℚ) :=
  scaleOffsetStage scale offset attrs (maskStage fill valid_min valid_max attrs DN)

/-- Embeds `VIIRSTiledGranule.fill`: a boolean layer that is true where the
raw digital number equals the effective fill value; when no fill value is
determinable the source builds `np.full(layer.shape, False)`, an all false
array of the same shape. -/
def fill (fillParam : Option ℤ) (attrs : DatasetAttributes) (DN : List ℤ) : List Bool :=
  match resolveParam fillParam attrs.Fillvalue with
  | some f => DN.map (fun d => decide (d = f))
  | none => DN.map (fun _ => false)

end VIIRSTiledGranule

/-- Helper: an elementwise map that sends `none` to `none` preserves no-data
pixels at every index. -/
lemma getD_map_none (g : Option ℚ → Option ℚ) (hg : g none = none)
    (l : List (Option ℚ)) (i : ℕ) (h : l.getD i none = none) :
    (l.map g).getD i none = none := by
  simp only [List.getD_eq_getElem?_getD, List.getElem?_map] at h ⊢
  cases hx : l[i]? with
  | none => simp [hx]
  | some x =>
    rw [hx] at h
    simp only [Option.getD_some] at h
    subst h
    simp [hx, hg]

/-- Claim C1: the calibrated-layer operation applies the five calibration
stages in the fixed order fill-masking, below-validMin masking, above-validMax
masking, multiply-by-scale, add-offset; a stage runs exactly when its
parameter is supplied explicitly or discoverable from the dataset attributes,
and an explicit parameter always takes precedence over the attribute value.
Part one evaluates the pipeline on raw values
[fill, validMin-1, validMin, validMax, validMax+1] with scale 2 and offset 1
under arbitrary attributes (so the explicit parameters win): the fill and
below-min positions (and the above-max position) become no-data, and every
in-range non-fill value v becomes v*2+1.  Part two: parameters discovered
from attributes behave exactly like explicitly supplied ones.  Part three:
with nothing supplied and no attributes, no stage runs. -/
theorem layer_pipeline_order_and_precedence :
    (∀ (f vmin vmax : ℤ) (attrs : DatasetAttributes), vmin ≤ vmax →
      ¬ (vmin ≤ f ∧ f ≤ vmax) →
      VIIRSTiledGranule.layer (some f) (some 2) (some 1) (some vmin) (some vmax) attrs
          [f, vmin - 1, vmin, vmax, vmax + 1]
        = [none, none, some ((vmin : ℚ) * 2 + 1), some ((vmax : ℚ) * 2 + 1), none])
  ∧ (∀ (f vmin vmax : ℤ) (s o : ℚ) (DN : List ℤ),
      VIIRSTiledGranule.layer none none none none none
          ⟨some f, some (vmin, vmax), some s, some o⟩ DN
        = VIIRSTiledGranule.layer (some f) (some s) (some o) (some vmin) (some vmax)
          ⟨none, none, none, none⟩ DN)
  ∧ (∀ DN : List ℤ,
      VIIRSTiledGranule.layer none none none none none ⟨none, none, none, none⟩ DN
        = DN.map (fun d : ℤ => some (d : ℚ))) := by
  refine ⟨?_, fun _ _ _ _ _ _ => rfl, fun _ => rfl⟩
  intro f vmin vmax attrs h1 h2
  have he : ∀ a b : ℤ, ((a : ℚ) = (b : ℚ)) ↔ a = b := fun a b => Int.cast_inj
  have hc : ∀ a b : ℤ, ((a : ℚ) < (b : ℚ)) ↔ a < b := fun a b => Int.cast_lt
  have t1 : vmin - 1 < vmin := by omega
  have t2 : ¬ vmin = f := by omega
  have t3 : ¬ vmax = f := by omega
  have t4 : ¬ vmin < vmin := by omega
  have t5 : ¬ vmax < vmin := by omega
  have t6 : ¬ vmax < vmax := by omega
  have t7 : ¬ vmax + 1 < vmin := by omega
  have t8 : vmax < vmax + 1 := by omega
  by_cases hb : vmin - 1 = f <;> by_cases ha : vmax + 1 = f <;>
    simp only [VIIRSTiledGranule.layer, VIIRSTiledGranule.maskStage,
      VIIRSTiledGranule.scaleOffsetStage, resolveParam, List.map_cons, List.map_nil,
      maskFill, maskBelow, maskAbove, he, hc, t1, t2, t3, t4, t5, t6, t7, t8, hb, ha,
      if_true, if_false, ite_true, ite_false, eq_self_iff_true, not_false_iff,
      Option.map_some', Option.map_none', List.cons.injEq, and_self, and_true, true_and]

/-- Witness for C1: concrete run with fill 0, valid range [10, 100], scale 2,
offset 1 and attributes that disagree with every explicit parameter. -/
theorem layer_pipeline_order_and_precedence_witness :
    VIIRSTiledGranule.layer (some 0) (some 2) (some 1) (some 10) (some 100)
        ⟨some 7, some (3, 4), some 5, some 6⟩ [0, 9, 10, 100, 101]
      = [none, none, some 21, some 201, none] := by
  have h := layer_pipeline_order_and_precedence.1 0 10 100
    ⟨some 7, some (3, 4), some 5, some 6⟩ (by decide) (by decide)
  norm_num at h
  exact h

/-- Claim C10: every pixel turned into no-data by the fill-masking or
valid-range stages remains no-data after the scale and offset stages: the
rescale and offset stages never convert a masked pixel back into a finite
value. -/
theorem layer_nodata_preserved (fillp : Option ℤ) (scale offset : Option ℚ)
    (vmin vmax : Option ℤ) (attrs : DatasetAttributes) (DN : List ℤ) (i : ℕ)
    (h : (VIIRSTiledGranule.maskStage fillp vmin vmax attrs DN).getD i none = none) :
    (VIIRSTiledGranule.layer fillp scale offset vmin vmax attrs DN).getD i none = none := by
  unfold VIIRSTiledGranule.layer VIIRSTiledGranule.scaleOffsetStage
  cases resolveParam scale attrs.scale_factor <;>
    cases resolveParam offset attrs.add_offset <;>
    first
      | exact h
      | exact getD_map_none _ rfl _ _ h
      | exact getD_map_none _ rfl _ _ (getD_map_none _ rfl _ _ h)

/-- Witness for C10: the fill-masked pixel at index 0 stays no-data through
scale 2 and offset 1. -/
theorem layer_nodata_preserved_witness :
    (VIIRSTiledGranule.maskStage (some 5) none none ⟨none, none, none, none⟩ [5, 3]).getD 0 none
        = none
  ∧ (VIIRSTiledGranule.layer (some 5) (some 2) (some 1) none none
        ⟨none, none, none, none⟩ [5, 3]).getD 0 none = none := by
  have hm : (VIIRSTiledGranule.maskStage (some 5) none none
      ⟨none, none, none, none⟩ [5, 3]).getD 0 none = none := by
    simp [VIIRSTiledGranule.maskStage, resolveParam, maskFill]
  exact ⟨hm, layer_nodata_preserved (some 5) (some 2) (some 1) none none
    ⟨none, none, none, none⟩ [5, 3] 0 hm⟩

/-- Claim C2: the validity-mask operation returns a boolean layer that is true
exactly where the raw digital number equals the effective fill value (explicit
parameter first, attribute otherwise); when no fill value is determinable from
either source it returns an all-false mask shaped like the raw array instead
of raising. -/
theorem fill_mask_spec (fillParam : Option ℤ) (attrs : DatasetAttributes) (DN : List ℤ) :
    (VIIRSTiledGranule.fill fillParam attrs DN).length = DN.length
  ∧ (∀ f, resolveParam fillParam attrs.Fillvalue = some f →
      VIIRSTiledGranule.fill fillParam attrs DN = DN.map (fun d => decide (d = f)))
  ∧ (resolveParam fillParam attrs.Fillvalue = none →
      VIIRSTiledGranule.fill fillParam attrs DN = List.replicate DN.length false) := by
  refine ⟨?_, ?_, ?_⟩
  · unfold VIIRSTiledGranule.fill
    cases resolveParam fillParam attrs.Fillvalue <;> simp
  · intro f hf
    unfold VIIRSTiledGranule.fill
    rw [hf]
  · intro hf
    unfold VIIRSTiledGranule.fill
    rw [hf]
    simp [List.map_const']

/-- Witness for C2: with an attribute-derived fill value 5 the mask marks
exactly the fill pixels, and with no fill value anywhere the mask is all
false with the shape of the raw array. -/
theorem fill_mask_spec_witness :
    VIIRSTiledGranule.fill none ⟨some 5, none, none, none⟩ [5, 3, 5] = [true, false, true]
  ∧ VIIRSTiledGranule.fill none ⟨none, none, none, none⟩ [5, 3, 5] = [false, false, false] := by
  constructor
  · have h := (fill_mask_spec none ⟨some 5, none, none, none⟩ [5, 3, 5]).2.1 5 rfl
    rw [h]
    decide
  · have h := (fill_mask_spec none ⟨none, none, none, none⟩ [5, 3, 5]).2.2 rfl
    rw [h]
    decide

/-! ## Character and digit utilities
Shared by the filename codec (`VIIRS_filename_parsing.py`) and the temporal
window normalization (`VIIRS_CMR_query.py`). -/

/-- Decimal digit character for a single digit value (values above nine all
render as the character 9; callers only use digits zero to nine). -/
def dchar : ℕ → Char
  | 0 => '0'
  | 1 => '1'
  | 2 => '2'
  | 3 => '3'
  | 4 => '4'
  | 5 => '5'
  | 6 => '6'
  | 7 => '7'
  | 8 => '8'
  | _ => '9'

/-- Numeric value of a decimal digit character. -/
def digitVal (c : Char) : ℕ := c.toNat - 48

/-- Two fixed-width decimal digits, most significant first. -/
def digits2 (n : ℕ) : List Char := [dchar (n / 10), dchar (n % 10)]

/-- Three fixed-width decimal digits, most significant first. -/
def digits3 (n : ℕ) : List Char := [dchar (n / 100), dchar (n / 10 % 10), dchar (n % 10)]

/-- Four fixed-width decimal digits, most significant first. -/
def digits4 (n : ℕ) : List Char := [dchar (n / 1000), dchar (n / 100 % 10), dchar (n / 10 % 10), dchar (n % 10)]

/-- Value of a two digit group. -/
def val2 (a b : Char) : ℕ := digitVal a * 10 + digitVal b

/-- Value of a three digit group. -/
def val3 (a b c : Char) : ℕ := val2 a b * 10 + digitVal c

/-- Value of a four digit group. -/
def val4 (a b c d : Char) : ℕ := val3 a b c * 10 + digitVal d

/-- Value of an all-digits character list, most significant first, as folded
by positional accumulation. -/
def digitsVal (s : List Char) : ℕ := s.foldl (fun a c => a * 10 + digitVal c) 0

lemma dchar_isDigit (d : ℕ) : (dchar d).isDigit = true := by
  rcases d with _ | _ | _ | _ | _ | _ | _ | _ | _ | d <;> rfl

lemma digitVal_dchar (d : ℕ) (h : d ≤ 9) : digitVal (dchar d) = d := by
  interval_cases d <;> decide

lemma ne_of_isDigit {c c2 : Char} (h : c.isDigit = true) (h2 : c2.isDigit = false) :
    c ≠ c2 := by
  intro he
  rw [he, h2] at h
  exact Bool.false_ne_true h

lemma dchar_ne_dot (d : ℕ) : dchar d ≠ '.' :=
  ne_of_isDigit (dchar_isDigit d) (by decide)

lemma dchar_ne_slash (d : ℕ) : dchar d ≠ '/' :=
  ne_of_isDigit (dchar_isDigit d) (by decide)

/-! ## Python string splitting and basename
`str.split(sep)` for a single character separator, and `os.path.basename`
(the suffix after the last slash). -/

/-- Embeds Python `s.split(sep)` for a one character separator: splitting the
empty string yields one empty token, and every separator occurrence starts a
new token. -/
def splitChar (sep : Char) : List Char → List (List Char)
  | [] => [[]]
  | c :: rest =>
    if c = sep then
      [] :: splitChar sep rest
    else
      match splitChar sep rest with
      | [] => [[c]]
      | t :: ts => (c :: t) :: ts

lemma splitChar_ne_nil (sep : Char) (s : List Char) : splitChar sep s ≠ [] := by
  induction s with
  | nil => simp [splitChar]
  | cons c rest ih =>
    simp only [splitChar]
    split
    · simp
    · split
      · simp
      · simp

lemma splitChar_no_sep (sep : Char) (s : List Char) (h : sep ∉ s) :
    splitChar sep s = [s] := by
  induction s with
  | nil => rfl
  | cons c rest ih =>
    simp only [List.mem_cons, not_or] at h
    simp only [splitChar]
    rw [if_neg (fun he => h.1 he.symm)]
    rw [ih h.2]

lemma splitChar_append (sep : Char) (xs ys : List Char) (h : sep ∉ xs) :
    splitChar sep (xs ++ sep :: ys) = xs :: splitChar sep ys := by
  induction xs with
  | nil =>
    simp [splitChar]
  | cons c rest ih =>
    simp only [List.mem_cons, not_or] at h
    simp only [List.cons_append, splitChar, List.append_eq]
    rw [if_neg (fun he => h.1 he.symm), ih h.2]

/-- Embeds `os.path.basename`: the suffix after the last slash, implemented on
the split components as in `posixpath`. -/
def basename (s : List Char) : List Char := (splitChar '/' s).getLastD []

lemma basename_no_slash (s : List Char) (h : '/' ∉ s) : basename s = s := by
  unfold basename
  rw [splitChar_no_sep _ _ h]
  rfl

/-! ## Filename codec
Embeds `VIIRS_filename_parsing.py`.  Python errors are embedded as `PyError`:
an out of range index raises a bare `IndexError` (carrying no text), while
`strptime` and `int` raise a `ValueError` carrying the offending raw text. -/

inductive PyError where
  | indexError
  | valueError (raw : List Char)
deriving DecidableEq

/-- Granule acquisition date as the year and one-based day of year, the exact
information content of the `AYYYYDDD` filename field. -/
structure GranuleDate where
  year : ℕ
  doy : ℕ
deriving DecidableEq

/-- Gregorian leap year test. -/
def isLeapYear (y : ℕ) : Bool := y % 4 = 0 && (y % 100 != 0 || y % 400 = 0)

/-- Number of days in a year. -/
def daysInYear (y : ℕ) : ℕ := if isLeapYear y then 366 else 365

/-- Date from a year and a day-of-year value between 1 and 366.  CPython
strptime computes the date through `date.fromordinal`, so a day-of-year one
past the length of a non-leap year rolls over to the next year rather than
raising. -/
def mkGranuleDate (y j : ℕ) : GranuleDate :=
  if j ≤ daysInYear y then ⟨y, j⟩ else ⟨y + 1, j - daysInYear y⟩

/-- Embeds `datetime.strptime(s, "%Y%j")` followed by `.date()`: exactly four
digits of year, then one to three digits of day-of-year whose value is
between 1 and 366 (the CPython regular expression for `%j` accepts exactly
those digit groups), consuming the whole string. -/
def strptime_Yj (s : List Char) : Option GranuleDate :=
  match s with
  | y1 :: y2 :: y3 :: y4 :: rest =>
    if y1.isDigit ∧ y2.isDigit ∧ y3.isDigit ∧ y4.isDigit
        ∧ rest ≠ [] ∧ rest.length ≤ 3 ∧ rest.all Char.isDigit
        ∧ 1 ≤ digitsVal rest ∧ digitsVal rest ≤ 366 then
      some (mkGranuleDate (val4 y1 y2 y3 y4) (digitsVal rest))
    else none
  | _ => none

/-- Embeds Python `int(s)`: an optional sign followed by at least one decimal
digit (the model omits the surrounding whitespace and underscore separators
CPython also tolerates, which no VIIRS build token uses). -/
def parsePyInt (s : List Char) : Option ℤ :=
  match s with
  | [] => none
  | c :: rest =>
    if c = '-' then
      if rest ≠ [] ∧ rest.all Char.isDigit then some (-(digitsVal rest : ℤ)) else none
    else if c = '+' then
      if rest ≠ [] ∧ rest.all Char.isDigit then some ((digitsVal rest : ℤ)) else none
    else if (c :: rest).all Char.isDigit then
      some ((digitsVal (c :: rest) : ℤ))
    else none

/-- Embeds `parse_VIIRS_product`: first dot-delimited token of the basename.
The split of any string is nonempty, so the source never raises here; the
empty arm is unreachable. -/
def parse_VIIRS_product (fn : List Char) : Except PyError (List Char) :=
  match splitChar '.' (basename fn) with
  | [] => Except.error PyError.indexError
  | t :: _ => Except.ok t

/-- Embeds `parse_VIIRS_date`: second token, stripped of its leading
character, parsed with strptime format `%Y%j`. -/
def parse_VIIRS_date (fn : List Char) : Except PyError GranuleDate :=
  match splitChar '.' (basename fn) with
  | _ :: t :: _ =>
    match strptime_Yj (t.drop 1) with
    | some d => Except.ok d
    | none => Except.error (PyError.valueError (t.drop 1))
  | _ => Except.error PyError.indexError

/-- Embeds `parse_VIIRS_tile`: third dot-delimited token of the basename. -/
def parse_VIIRS_tile (fn : List Char) : Except PyError (List Char) :=
  match splitChar '.' (basename fn) with
  | _ :: _ :: t :: _ => Except.ok t
  | _ => Except.error PyError.indexError

/-- Embeds `parse_VIIRS_build`: fourth dot-delimited token of the basename,
parsed as an integer. -/
def parse_VIIRS_build (fn : List Char) : Except PyError ℤ :=
  match splitChar '.' (basename fn) with
  | _ :: _ :: _ :: t :: _ =>
    match parsePyInt t with
    | some n => Except.ok n
    | none => Except.error (PyError.valueError t)
  | _ => Except.error PyError.indexError

/-- Builds a filename following the dot-delimited grammar
`PRODUCT.AYYYYDDD.TILE.BUILD` stated by the specification for VIIRS granule
names, with the four-digit year, three-digit day of year and three-digit
build number zero padded as in the grammar example `VNP.A2020123.h10v05.001`. -/
def make_VIIRS_filename (product : List Char) (year doy : ℕ) (tile : List Char)
    (build : ℕ) : List Char :=
  product ++ ('.' :: (('A' :: (digits4 year ++ digits3 doy)) ++ ('.' :: (tile ++ ('.' :: digits3 build)))))

lemma dchar_ne_minus (d : ℕ) : dchar d ≠ '-' :=
  ne_of_isDigit (dchar_isDigit d) (by decide)

lemma dchar_ne_plus (d : ℕ) : dchar d ≠ '+' :=
  ne_of_isDigit (dchar_isDigit d) (by decide)

lemma digitsVal_digits3 (n : ℕ) (h : n ≤ 999) : digitsVal (digits3 n) = n := by
  unfold digitsVal digits3
  simp only [List.foldl_cons, List.foldl_nil]
  rw [digitVal_dchar _ (by omega), digitVal_dchar _ (by omega), digitVal_dchar _ (by omega)]
  omega

lemma val4_digits4 (n : ℕ) (h : n ≤ 9999) :
    val4 (dchar (n / 1000)) (dchar (n / 100 % 10)) (dchar (n / 10 % 10)) (dchar (n % 10)) = n := by
  unfold val4 val3 val2
  rw [digitVal_dchar _ (by omega), digitVal_dchar _ (by omega), digitVal_dchar _ (by omega),
    digitVal_dchar _ (by omega)]
  omega

lemma daysInYear_le (y : ℕ) : daysInYear y ≤ 366 := by
  unfold daysInYear
  split <;> omega

lemma splitChar_tokens4 (a b c d : List Char) (ha : '.' ∉ a) (hb : '.' ∉ b)
    (hc : '.' ∉ c) (hd : '.' ∉ d) :
    splitChar '.' (a ++ ('.' :: (b ++ ('.' :: (c ++ ('.' :: d)))))) = [a, b, c, d] := by
  rw [splitChar_append _ _ _ ha, splitChar_append _ _ _ hb, splitChar_append _ _ _ hc,
    splitChar_no_sep _ _ hd]

lemma strptime_Yj_digits (y j : ℕ) (hy : y ≤ 9999) (h1 : 1 ≤ j) (h2 : j ≤ 366) :
    strptime_Yj (digits4 y ++ digits3 j) = some (mkGranuleDate y j) := by
  have hv : digitsVal (digits3 j) = j := digitsVal_digits3 j (by omega)
  simp only [digits4, List.cons_append, List.nil_append, strptime_Yj]
  rw [if_pos]
  · rw [hv, val4_digits4 y hy]
  · refine ⟨dchar_isDigit _, dchar_isDigit _, dchar_isDigit _, dchar_isDigit _, ?_, ?_, ?_, ?_, ?_⟩
    · simp [digits3]
    · simp [digits3]
    · simp [digits3, dchar_isDigit]
    · rw [hv]; omega
    · rw [hv]; omega

lemma parsePyInt_digits3 (b : ℕ) (hb : b ≤ 999) : parsePyInt (digits3 b) = some (b : ℤ) := by
  simp only [digits3, parsePyInt]
  rw [if_neg (dchar_ne_minus _), if_neg (dchar_ne_plus _), if_pos]
  · rw [show (dchar (b / 100) :: [dchar (b / 10 % 10), dchar (b % 10)])
        = digits3 b by simp [digits3]]
    rw [digitsVal_digits3 b hb]
  · simp [dchar_isDigit]

/-- Claim C4: for every tuple (product, date, tile, build) conforming to the
filename grammar `PRODUCT.AYYYYDDD.TILE.BUILD`, constructing the dot-delimited
filename and re-parsing it with the four parsers recovers exactly the original
four values. -/
theorem filename_roundtrip (product tile : List Char) (year doy build : ℕ)
    (hpd : '.' ∉ product) (hps : '/' ∉ product)
    (htd : '.' ∉ tile) (hts : '/' ∉ tile)
    (hy : year ≤ 9999) (hd1 : 1 ≤ doy) (hd2 : doy ≤ daysInYear year) (hb : build ≤ 999) :
    parse_VIIRS_product (make_VIIRS_filename product year doy tile build) = Except.ok product
  ∧ parse_VIIRS_date (make_VIIRS_filename product year doy tile build)
      = Except.ok ⟨year, doy⟩
  ∧ parse_VIIRS_tile (make_VIIRS_filename product year doy tile build) = Except.ok tile
  ∧ parse_VIIRS_build (make_VIIRS_filename product year doy tile build)
      = Except.ok (build : ℤ) := by
  have hnd : ∀ d : ℕ, ¬ ('.' = dchar d) := fun d he => dchar_ne_dot d he.symm
  have hns : ∀ d : ℕ, ¬ ('/' = dchar d) := fun d he => dchar_ne_slash d he.symm
  have hslash : '/' ∉ make_VIIRS_filename product year doy tile build := by
    unfold make_VIIRS_filename
    simp [digits4, digits3, hps, hts, hns]
  have hbase : basename (make_VIIRS_filename product year doy tile build)
      = make_VIIRS_filename product year doy tile build := basename_no_slash _ hslash
  have hsplit : splitChar '.' (make_VIIRS_filename product year doy tile build)
      = [product, 'A' :: (digits4 year ++ digits3 doy), tile, digits3 build] := by
    unfold make_VIIRS_filename
    refine splitChar_tokens4 _ _ _ _ hpd ?_ htd ?_
    · simp [digits4, digits3, hnd]
    · simp [digits3, hnd]
  have hdoy366 : doy ≤ 366 := le_trans hd2 (daysInYear_le year)
  refine ⟨?_, ?_, ?_, ?_⟩
  · simp only [parse_VIIRS_product, hbase, hsplit]
  · simp only [parse_VIIRS_date, hbase, hsplit, List.drop_succ_cons, List.drop_zero]
    rw [strptime_Yj_digits year doy hy hd1 hdoy366]
    unfold mkGranuleDate
    rw [if_pos hd2]
  · simp only [parse_VIIRS_tile, hbase, hsplit]
  · simp only [parse_VIIRS_build, hbase, hsplit]
    rw [parsePyInt_digits3 build hb]

/-- Witness for C4: the grammar example VNP.A2020123.h10v05.001 round-trips to
product VNP, date (2020, day 123), tile h10v05, build 1. -/
theorem filename_roundtrip_witness :
    make_VIIRS_filename ['V', 'N', 'P'] 2020 123 ['h', '1', '0', 'v', '0', '5'] 1
      = ['V', 'N', 'P', '.', 'A', '2', '0', '2', '0', '1', '2', '3', '.',
         'h', '1', '0', 'v', '0', '5', '.', '0', '0', '1']
  ∧ parse_VIIRS_product (make_VIIRS_filename ['V', 'N', 'P'] 2020 123 ['h', '1', '0', 'v', '0', '5'] 1)
      = Except.ok ['V', 'N', 'P']
  ∧ parse_VIIRS_date (make_VIIRS_filename ['V', 'N', 'P'] 2020 123 ['h', '1', '0', 'v', '0', '5'] 1)
      = Except.ok ⟨2020, 123⟩
  ∧ parse_VIIRS_tile (make_VIIRS_filename ['V', 'N', 'P'] 2020 123 ['h', '1', '0', 'v', '0', '5'] 1)
      = Except.ok ['h', '1', '0', 'v', '0', '5']
  ∧ parse_VIIRS_build (make_VIIRS_filename ['V', 'N', 'P'] 2020 123 ['h', '1', '0', 'v', '0', '5'] 1)
      = Except.ok 1 := by
  have h := filename_roundtrip ['V', 'N', 'P'] ['h', '1', '0', 'v', '0', '5'] 2020 123 1
    (by decide) (by decide) (by decide) (by decide) (by decide) (by decide) (by decide) (by decide)
  exact ⟨by decide, h.1, h.2.1, h.2.2.1, h.2.2.2⟩

/-- Counterexample for C8: on the input abc the date, tile and build tokens
are all missing, yet the product parser raises nothing and returns abc, and
the date parser raises a bare index error that names no token.  This refutes
the claim that every filename-codec operation raises a parse error naming the
offending token whenever any of the four tokens is missing. -/
theorem filename_parser_error_policy_counterexample :
    parse_VIIRS_product ['a', 'b', 'c'] = Except.ok ['a', 'b', 'c']
  ∧ (splitChar '.' (basename ['a', 'b', 'c'])).length = 1
  ∧ parse_VIIRS_date ['a', 'b', 'c'] = Except.error PyError.indexError :=
  ⟨rfl, rfl, rfl⟩

/-- Amended claim C8: each parser raises an error exactly when its own token
is missing or fails to parse; a missing token raises a bare index error that
carries no token text, while a present but unparsable token raises a value
error carrying the offending raw text; no parser substitutes a silent default.
The product parser's token always exists, so it never raises, and parsers for
present tokens are unaffected by other tokens being missing. -/
theorem filename_parser_error_policy (fn : List Char) :
    parse_VIIRS_product fn = Except.ok ((splitChar '.' (basename fn)).headD [])
  ∧ (parse_VIIRS_date fn =
      if 2 ≤ (splitChar '.' (basename fn)).length then
        match strptime_Yj (((splitChar '.' (basename fn)).getD 1 []).drop 1) with
        | some d => Except.ok d
        | none => Except.error (PyError.valueError (((splitChar '.' (basename fn)).getD 1 []).drop 1))
      else Except.error PyError.indexError)
  ∧ (parse_VIIRS_tile fn =
      if 3 ≤ (splitChar '.' (basename fn)).length then
        Except.ok ((splitChar '.' (basename fn)).getD 2 [])
      else Except.error PyError.indexError)
  ∧ (parse_VIIRS_build fn =
      if 4 ≤ (splitChar '.' (basename fn)).length then
        match parsePyInt ((splitChar '.' (basename fn)).getD 3 []) with
        | some n => Except.ok n
        | none => Except.error (PyError.valueError ((splitChar '.' (basename fn)).getD 3 []))
      else Except.error PyError.indexError) := by
  rcases h : splitChar '.' (basename fn) with _ | ⟨t0, _ | ⟨t1, _ | ⟨t2, _ | ⟨t3, rest⟩⟩⟩⟩
  · exact absurd h (splitChar_ne_nil _ _)
  all_goals
    refine ⟨?_, ?_, ?_, ?_⟩ <;>
      simp only [parse_VIIRS_product, parse_VIIRS_date, parse_VIIRS_tile, parse_VIIRS_build,
        h, List.headD_cons, List.getD, List.length_cons, List.getElem?_cons_succ,
        List.get?_cons_succ, List.get?_cons_zero,
        List.getElem?_cons_zero, Option.getD_some, List.length_nil] <;>
      first
        | rfl
        | (rw [if_neg (by omega)])
        | (rw [if_pos (by omega)])

/-! ## Temporal window normalization
Embeds `earliest_datetime` and `latest_datetime` from
`VIIRS_CMR_query.py`.  The source formats the input datetime with
`strftime("%Y-%m-%d")` (keeping only the calendar day) and re-parses the
fixed strings `YYYY-MM-DDT00:00:00Z` and `YYYY-MM-DDT23:59:59Z`.  A string
input is first parsed into a datetime by `dateutil`; the embedding starts
from the datetime fields, which carry all information the source keeps. -/

structure PyDatetime where
  year : ℕ
  month : ℕ
  day : ℕ
  hour : ℕ
  minute : ℕ
  second : ℕ
deriving DecidableEq

/-- Embeds `datetime_in.strftime("%Y-%m-%d")`: four digit year, two digit
month and day, dash separated. -/
def strftime_Ymd (dt : PyDatetime) : List Char :=
  digits4 dt.year ++ '-' :: digits2 dt.month ++ '-' :: digits2 dt.day

/-- Embeds `dateutil` parsing of a string of the exact shape
`YYYY-MM-DDTHH:MM:SSZ` into datetime fields. -/
def parseISO (s : List Char) : Option PyDatetime :=
  match s with
  | y1 :: y2 :: y3 :: y4 :: c1 :: m1 :: m2 :: c2 :: d1 :: d2 :: c3 :: h1 :: h2 :: c4 ::
      n1 :: n2 :: c5 :: s1 :: s2 :: c6 :: rest =>
    if c1 = '-' ∧ c2 = '-' ∧ c3 = 'T' ∧ c4 = ':' ∧ c5 = ':' ∧ c6 = 'Z' ∧ rest = []
        ∧ y1.isDigit ∧ y2.isDigit ∧ y3.isDigit ∧ y4.isDigit
        ∧ m1.isDigit ∧ m2.isDigit ∧ d1.isDigit ∧ d2.isDigit
        ∧ h1.isDigit ∧ h2.isDigit ∧ n1.isDigit ∧ n2.isDigit
        ∧ s1.isDigit ∧ s2.isDigit then
      some ⟨val4 y1 y2 y3 y4, val2 m1 m2, val2 d1 d2, val2 h1 h2, val2 n1 n2, val2 s1 s2⟩
    else none
  | _ => none

/-- Embeds `earliest_datetime`: format the calendar day, append T00:00:00Z,
re-parse. -/
def earliest_datetime (dt : PyDatetime) : Option PyDatetime :=
  parseISO (strftime_Ymd dt ++ ['T', '0', '0', ':', '0', '0', ':', '0', '0', 'Z'])

/-- Embeds `latest_datetime`: format the calendar day, append T23:59:59Z,
re-parse. -/
def latest_datetime (dt : PyDatetime) : Option PyDatetime :=
  parseISO (strftime_Ymd dt ++ ['T', '2', '3', ':', '5', '9', ':', '5', '9', 'Z'])

lemma val2_digits2 (n : ℕ) (h : n ≤ 99) : val2 (dchar (n / 10)) (dchar (n % 10)) = n := by
  unfold val2
  rw [digitVal_dchar _ (by omega), digitVal_dchar _ (by omega)]
  omega

lemma parseISO_fmt (y mo dy : ℕ) (t1 t2 t3 t4 t5 t6 : Char)
    (hy : y ≤ 9999) (hm : mo ≤ 99) (hd : dy ≤ 99)
    (h1 : t1.isDigit) (h2 : t2.isDigit) (h3 : t3.isDigit)
    (h4 : t4.isDigit) (h5 : t5.isDigit) (h6 : t6.isDigit) :
    parseISO (digits4 y ++ '-' :: digits2 mo ++ '-' :: digits2 dy
        ++ ['T', t1, t2, ':', t3, t4, ':', t5, t6, 'Z'])
      = some ⟨y, mo, dy, val2 t1 t2, val2 t3 t4, val2 t5 t6⟩ := by
  simp only [digits4, digits2, List.cons_append, List.nil_append, parseISO]
  rw [if_pos]
  · rw [val4_digits4 y hy, val2_digits2 mo hm, val2_digits2 dy hd]
  · simp [dchar_isDigit, h1, h2, h3, h4, h5, h6]

/-- Claim C3: for every input datetime the temporal-window normalization
produces a window beginning at 00:00:00 of the input's calendar day and
ending at 23:59:59 of that day, and the result depends only on the calendar
day, never on the time-of-day fields. -/
theorem temporal_window_normalization (dt : PyDatetime)
    (hy : dt.year ≤ 9999) (hm : dt.month ≤ 99) (hd : dt.day ≤ 99) :
    earliest_datetime dt = some ⟨dt.year, dt.month, dt.day, 0, 0, 0⟩
  ∧ latest_datetime dt = some ⟨dt.year, dt.month, dt.day, 23, 59, 59⟩
  ∧ (∀ h m s : ℕ,
      earliest_datetime ⟨dt.year, dt.month, dt.day, h, m, s⟩ = earliest_datetime dt
    ∧ latest_datetime ⟨dt.year, dt.month, dt.day, h, m, s⟩ = latest_datetime dt) := by
  refine ⟨?_, ?_, fun h m s => ⟨rfl, rfl⟩⟩
  · unfold earliest_datetime strftime_Ymd
    rw [show (digits4 dt.year ++ '-' :: digits2 dt.month ++ '-' :: digits2 dt.day)
          ++ ['T', '0', '0', ':', '0', '0', ':', '0', '0', 'Z']
        = digits4 dt.year ++ '-' :: digits2 dt.month ++ '-' :: digits2 dt.day
          ++ ['T', '0', '0', ':', '0', '0', ':', '0', '0', 'Z'] by simp [List.append_assoc]]
    rw [parseISO_fmt dt.year dt.month dt.day '0' '0' '0' '0' '0' '0' hy hm hd
      (by decide) (by decide) (by decide) (by decide) (by decide) (by decide)]
    rfl
  · unfold latest_datetime strftime_Ymd
    rw [show (digits4 dt.year ++ '-' :: digits2 dt.month ++ '-' :: digits2 dt.day)
          ++ ['T', '2', '3', ':', '5', '9', ':', '5', '9', 'Z']
        = digits4 dt.year ++ '-' :: digits2 dt.month ++ '-' :: digits2 dt.day
          ++ ['T', '2', '3', ':', '5', '9', ':', '5', '9', 'Z'] by simp [List.append_assoc]]
    rw [parseISO_fmt dt.year dt.month dt.day '2' '3' '5' '9' '5' '9' hy hm hd
      (by decide) (by decide) (by decide) (by decide) (by decide) (by decide)]
    rfl

/-- Witness for C3: an input at 13:45:07 on 2021-01-01 normalizes to the
00:00:00 and 23:59:59 bounds of that day. -/
theorem temporal_window_normalization_witness :
    earliest_datetime ⟨2021, 1, 1, 13, 45, 7⟩ = some ⟨2021, 1, 1, 0, 0, 0⟩
  ∧ latest_datetime ⟨2021, 1, 1, 13, 45, 7⟩ = some ⟨2021, 1, 1, 23, 59, 59⟩ := by
  have h := temporal_window_normalization ⟨2021, 1, 1, 13, 45, 7⟩
    (by decide) (by decide) (by decide)
  exact ⟨h.1, h.2.1⟩

/-! ## Polygon winding normalization
Embeds the exterior-ring handling inside `VIIRS_CMR_query`
(`if not ring.is_ccw: ring = ring.reverse()`).  A ring is its closed
coordinate sequence; `is_ccw` is the shapely test: the signed shoelace area
of the closed sequence is positive. -/

/-- Cross product term of the shoelace sum for one edge. -/
def cross (p q : ℤ × ℤ) : ℤ := p.1 * q.2 - p.2 * q.1

/-- Twice the signed shoelace area of a closed coordinate sequence. -/
def ringSignedAreaTwice : List (ℤ × ℤ) → ℤ
  | p :: q :: rest => cross p q + ringSignedAreaTwice (q :: rest)
  | _ => 0

/-- Embeds the shapely `is_ccw` predicate: positive signed area. -/
def is_ccw (r : List (ℤ × ℤ)) : Bool := decide (0 < ringSignedAreaTwice r)

/-- Embeds the winding normalization of the query builder: reverse the ring
exactly when it is not counter-clockwise. -/
def normalize_ring (r : List (ℤ × ℤ)) : List (ℤ × ℤ) :=
  if is_ccw r then r else r.reverse

lemma slin_append_single : ∀ (xs : List (ℤ × ℤ)) (a : ℤ × ℤ),
    ringSignedAreaTwice (xs ++ [a])
      = ringSignedAreaTwice xs + (match xs.getLast? with
          | some b => cross b a
          | none => 0)
  | [], a => by simp [ringSignedAreaTwice]
  | [x], a => by simp [ringSignedAreaTwice]
  | x :: y :: t, a => by
    have ih := slin_append_single (y :: t) a
    simp only [List.cons_append] at ih ⊢
    rw [show ringSignedAreaTwice (x :: y :: (t ++ [a]))
        = cross x y + ringSignedAreaTwice (y :: (t ++ [a])) from rfl]
    rw [ih]
    rw [show ringSignedAreaTwice (x :: y :: t) = cross x y + ringSignedAreaTwice (y :: t) from rfl]
    rw [List.getLast?_cons_cons]
    ring

/-- Reversing a ring negates its signed area. -/
lemma slin_reverse : ∀ r : List (ℤ × ℤ),
    ringSignedAreaTwice r.reverse = - ringSignedAreaTwice r
  | [] => by simp [ringSignedAreaTwice]
  | p :: rest => by
    have ih := slin_reverse rest
    rw [List.reverse_cons, slin_append_single, ih]
    cases rest with
    | nil => simp [ringSignedAreaTwice]
    | cons q t =>
      rw [show (q :: t : List (ℤ × ℤ)).reverse.getLast? = some q by
        simp [List.getLast?_reverse]]
      rw [show ringSignedAreaTwice (p :: q :: t) = cross p q + ringSignedAreaTwice (q :: t) from rfl]
      simp only [cross]
      ring

/-- Claim C6: polygon winding normalization is idempotent in the sense of the
specification: a counter-clockwise ring is returned unchanged, and a
clockwise ring (negative signed area) is reversed, after which normalizing
again is a no-op. -/
theorem winding_normalization_idempotent (r : List (ℤ × ℤ)) :
    (is_ccw r = true → normalize_ring r = r)
  ∧ (ringSignedAreaTwice r < 0 →
      normalize_ring r = r.reverse
    ∧ normalize_ring (normalize_ring r) = normalize_ring r) := by
  constructor
  · intro h
    unfold normalize_ring
    rw [h, if_pos rfl]
  · intro h
    have h1 : is_ccw r = false := by
      unfold is_ccw
      simp
      omega
    have h2 : normalize_ring r = r.reverse := by
      unfold normalize_ring
      rw [h1]
      simp
    have h3 : is_ccw r.reverse = true := by
      unfold is_ccw
      rw [slin_reverse]
      simp
      omega
    refine ⟨h2, ?_⟩
    rw [h2]
    unfold normalize_ring
    rw [h3, if_pos rfl]

/-- Witness for C6: the closed unit triangle traversed clockwise has negative
signed area, is reversed by normalization, and a second normalization is a
no-op; its counter-clockwise reversal is returned unchanged. -/
theorem winding_normalization_idempotent_witness :
    ringSignedAreaTwice [(0, 0), (0, 1), (1, 1), (0, 0)] < 0
  ∧ normalize_ring [(0, 0), (0, 1), (1, 1), (0, 0)] = [(0, 0), (1, 1), (0, 1), (0, 0)]
  ∧ normalize_ring (normalize_ring [(0, 0), (0, 1), (1, 1), (0, 0)])
      = normalize_ring [(0, 0), (0, 1), (1, 1), (0, 0)]
  ∧ is_ccw [(0, 0), (1, 1), (0, 1), (0, 0)] = true
  ∧ normalize_ring [(0, 0), (1, 1), (0, 1), (0, 0)] = [(0, 0), (1, 1), (0, 1), (0, 0)] := by
  have h := (winding_normalization_idempotent [(0, 0), (0, 1), (1, 1), (0, 0)]).2 (by decide)
  have h2 := (winding_normalization_idempotent [(0, 0), (1, 1), (0, 1), (0, 0)]).1 (by decide)
  refine ⟨by decide, ?_, h.2, by decide, h2⟩
  rw [h.1]
  decide

/-! ## Catalog query execution
Embeds the result handling of `VIIRS_CMR_query`: the transport call
`query.get()` is modelled by its outcome, either a granule list or an
exception of an arbitrary type `ε`.  The source wraps the call in
`try/except Exception` and re-raises `CMRServerUnreachable(e)`; on success it
sorts the granules by the metadata key `BeginningDateTime` with Python
`sorted`, a stable sort (any stable sort by the same key produces the same
list, so merge sort embeds it faithfully). -/

structure DataGranule where
  native_id : String
  BeginningDateTime : String
deriving DecidableEq

/-- Embeds `sorted(granules, key=lambda granule: ...BeginningDateTime)`. -/
def granule_sort (gs : List DataGranule) : List DataGranule :=
  gs.mergeSort (fun a b => decide (a.BeginningDateTime ≤ b.BeginningDateTime))

/-- The single distinguished caller-facing error of the query layer,
carrying the original cause, as raised by `raise CMRServerUnreachable(e)`. -/
inductive CMRException (ε : Type) where
  | CMRServerUnreachable (cause : ε)
deriving DecidableEq

/-- Embeds the execution tail of `VIIRS_CMR_query`: run the transport, wrap
any failure in the distinguished error, sort successful results. -/
def VIIRS_CMR_query {ε : Type} (transport : Except ε (List DataGranule)) :
    Except (CMRException ε) (List DataGranule) :=
  match transport with
  | Except.error e => Except.error (CMRException.CMRServerUnreachable e)
  | Except.ok gs => Except.ok (granule_sort gs)

/-- Claim C5: whatever the underlying kind of transport failure, the query
re-raises the single distinguished error carrying the original cause, so the
caller never observes the underlying exception type directly. -/
theorem query_transport_failure_uniform {ε : Type} (e : ε) :
    VIIRS_CMR_query (Except.error e : Except ε (List DataGranule))
      = Except.error (CMRException.CMRServerUnreachable e) := rfl

/-- Claim C7: for every granule list returned by the transport, the query
returns it sorted ascending by temporal-extent begin timestamp, as a
permutation of the input, and stably: the records with any fixed begin
timestamp keep their transport-returned relative order. -/
theorem query_results_sorted_stably (gs : List DataGranule) :
    VIIRS_CMR_query (Except.ok gs : Except Unit (List DataGranule))
      = Except.ok (granule_sort gs)
  ∧ (granule_sort gs).Pairwise (fun a b => a.BeginningDateTime ≤ b.BeginningDateTime)
  ∧ List.Perm (granule_sort gs) gs
  ∧ ∀ t : String, (granule_sort gs).filter (fun g => decide (g.BeginningDateTime = t))
      = gs.filter (fun g => decide (g.BeginningDateTime = t)) := by
  have trans : ∀ a b c : DataGranule,
      decide (a.BeginningDateTime ≤ b.BeginningDateTime) = true →
      decide (b.BeginningDateTime ≤ c.BeginningDateTime) = true →
      decide (a.BeginningDateTime ≤ c.BeginningDateTime) = true := by
    intro a b c hab hbc
    simp only [decide_eq_true_eq] at *
    exact le_trans hab hbc
  have total : ∀ a b : DataGranule,
      (decide (a.BeginningDateTime ≤ b.BeginningDateTime)
        || decide (b.BeginningDateTime ≤ a.BeginningDateTime)) = true := by
    intro a b
    simpa using le_total a.BeginningDateTime b.BeginningDateTime
  refine ⟨rfl, ?_, List.mergeSort_perm gs _, ?_⟩
  · have h := List.sorted_mergeSort trans total gs
    exact h.imp (fun hab => of_decide_eq_true hab)
  · intro t
    set p : DataGranule → Bool := fun g => decide (g.BeginningDateTime = t) with hp
    have hpair : (gs.filter p).Pairwise
        (fun a b => decide (a.BeginningDateTime ≤ b.BeginningDateTime) = true) := by
      apply List.pairwise_of_forall_mem_list
      intro a ha b hb
      have ha2 := (List.mem_filter.mp ha).2
      have hb2 := (List.mem_filter.mp hb).2
      simp only [hp, decide_eq_true_eq] at ha2 hb2
      simp [ha2, hb2]
    have hsub : (gs.filter p).Sublist (granule_sort gs) :=
      List.sublist_mergeSort trans total hpair (List.filter_sublist gs)
    have hsub2 : (gs.filter p).Sublist ((granule_sort gs).filter p) := by
      have h3 := List.Sublist.filter p hsub
      rwa [List.filter_filter, show (fun a => p a && p a) = p by funext a; cases p a <;> simp] at h3
    have hperm : ((granule_sort gs).filter p).Perm (gs.filter p) :=
      List.Perm.filter p (List.mergeSort_perm gs _)
    exact (hsub2.eq_of_length (hperm.length_eq.symm)).symm
